import Mathlib

/-!
Shallow embedding of `migrate_database.py`, the mongo migration engine.

Modelling conventions:
* The `migrations` mongo collection is a `List Doc` in insertion (natural)
  order; `insert` appends at the end, `find_one` returns the first document
  matching the filter in that order, `remove` deletes every matching document.
* Mongo documents are free-form, so every field of `Doc` is an `Option`;
  the auto-generated `_id` and the `script_execution_date` / lock timestamps
  are elided (physical time and ObjectIds are not modelled; no claim reads
  them).
* `hashlib.sha1(...).hexdigest()` is replaced by an executable stand-in
  `sha1_hexdigest`; every use in the source only compares digests for
  equality, never inspects them.
* Fallible code is embedded with `Except`/`Option`: every `raise
  ExitMessage(...)` site in the source has its own constructor of `Err`,
  and the unguarded dictionary lookup `self.document['sha_hash']` is a
  Python `KeyError`, embedded as `Err.keyError`.
* `db.eval(...)` is abstracted by a caller-supplied `evalFn`; its three
  observable outcomes (falsy return, truthy error-message return, raised
  `OperationFailure`) are the constructors of `EvalResult`.
* Python's `sorted` on strings is the stable sort by code-point
  lexicographic order; since that order is antisymmetric on strings, every
  sorting algorithm returns the same list, and we embed it as an insertion
  sort (`pySorted`), which the kernel can evaluate.
* `glob.glob('./[0-9][0-9][0-9][0-9]_*.js')` plus `os.path.basename` is
  modelled by filtering a directory listing `files : List (String × String)`
  (basename, file content) with `matches_pattern`; `os.path.isfile` is
  assumed true for listed entries.
* `enable_tablescans` only toggles a server parameter and restores it; it
  carries no migration state and is elided from the locked region.
-/

namespace MigrateDatabase

def MIGRATION_STATUS_OK : String := "OK"

def MIGRATION_STATUS_FAILED : String := "FAILED"

/-- A document of the `migrations` collection.  All fields optional: mongo
documents are schemaless, and the source stores both migration records
(`filename`, `error_message`, `status`, `sha_hash`) and the lock marker
(`migration_lock`, whose timestamp payload is elided to `Unit`). -/
structure Doc where
  filename : Option String := none
  error_message : Option String := none
  status : Option String := none
  sha_hash : Option String := none
  migration_lock : Option Unit := none
deriving DecidableEq, Repr

/-- One raise site of the source per constructor (`ExitMessage(...)` sites,
plus the Python `KeyError` the unguarded `document['sha_hash']` lookup can
raise).  Message payloads keep the data interpolated into the source's
format strings; fixed message text is dropped. -/
inductive Err where
  /-- migrate_database.py:65, `'Mongo db is already locked ...'` -/
  | alreadyLocked : Err
  /-- migrate_database.py:165, `'Last try to migrate the database failed
  with error "..." . Script with errors "..." ...'` -/
  | priorFailure (error_message failed_script : String) : Err
  /-- migrate_database.py:181, `'No migration scripts in current working
  directory ...'` (the cwd in the message is elided) -/
  | noScripts : Err
  /-- migrate_database.py:184, `'Non consecutive filename in list ...'` -/
  | nonConsecutive (sorted_filenames : List String) : Err
  /-- migrate_database.py:191, `'Hash value in db must not differ ...'` -/
  | hashMismatch (filename : String) : Err
  /-- migrate_database.py:212, `'Execution of database migration "..."
  failed with message: "..."'` -/
  | migrationFailed (filename message : String) : Err
  /-- Python KeyError on a dictionary lookup of the given key -/
  | keyError (key : String) : Err
deriving DecidableEq, Repr

/-- Executable stand-in for `hashlib.sha1(content).hexdigest()`.  The source
only ever compares digests for equality, so the concrete digest function is
irrelevant to every claim. -/
def sha1_hexdigest (s : String) : String := "sha1:" ++ s

/-- The three observable outcomes of `mongo_db().eval(script)`: a falsy
return value, a truthy return value (an error message), or a raised
`pymongo OperationFailure` with the given message text. -/
inductive EvalResult where
  | ok : EvalResult
  | errorMessage (msg : String) : EvalResult
  | operationFailure (msg : String) : EvalResult
deriving DecidableEq, Repr

/-- The in-memory `Migration` object: `Migration.__init__`
(migrate_database.py:80-83), with the source's `None` defaults. -/
structure Migration where
  filename : String
  document : Option Doc := none
  script_content : String := ""
deriving DecidableEq, Repr

/-- The glob character class `[0-9]`: an ASCII decimal digit. -/
def is_ascii_digit (c : Char) : Bool := 48 ≤ c.toNat && c.toNat ≤ 57

/-- Numeric value of an ASCII digit character. -/
def char_digit (c : Char) : Nat := c.toNat - 48

/-- Value of the four-digit prefix of a character list (helper for
`extract_filenumber`). -/
def filenumber_of_chars : List Char → Nat
  | d0 :: d1 :: d2 :: d3 :: _ =>
      ((char_digit d0 * 10 + char_digit d1) * 10 + char_digit d2) * 10 + char_digit d3
  | _ => 0

/-- Source `extract_filenumber` (migrate_database.py:169-170):
`int(filename[:4])`.  Totalised: on a string shorter than four characters
(where Python would parse fewer digits or raise `ValueError` on
non-digits) the result is 0; every call site only passes glob-matched
names, which have exactly four leading digits. -/
def extract_filenumber (s : String) : Nat :=
  filenumber_of_chars s.data

/-- Python string comparison: lexicographic on code points. -/
def lexLe : List Char → List Char → Bool
  | [], _ => true
  | _ :: _, [] => false
  | a :: as, b :: bs =>
      if a.toNat < b.toNat then true
      else if b.toNat < a.toNat then false
      else lexLe as bs

/-- Python `s <= t` on strings. -/
def pyStrLe (s t : String) : Bool := lexLe s.data t.data

/-- Insert into a `pyStrLe`-sorted list, keeping it sorted. -/
def insertSorted (x : String) : List String → List String
  | [] => [x]
  | y :: ys => if pyStrLe x y then x :: y :: ys else y :: insertSorted x ys

/-- Python `sorted(l)` for a list of strings.  Because `pyStrLe` is
antisymmetric (equal code points mean equal strings), every sorting
algorithm produces the same list, so stable insertion sort is a faithful
embedding of Python's stable sort. -/
def pySorted (l : List String) : List String := l.foldr insertSorted []

/-- Source `check_consecutive` (migrate_database.py:173-174):
`[extract_filenumber(f) for f in sorted(filenames)] == range(0, len(filenames))`
(Python 2, where `range` is a list). -/
def check_consecutive (filenames : List String) : Bool :=
  decide ((pySorted filenames).map extract_filenumber = List.range filenames.length)

/-- The glob pattern `[0-9][0-9][0-9][0-9]_*.js` on a character list:
four ASCII digits, an underscore, then `*` (any characters except `/`)
followed by the literal `.js`. -/
def matches_pattern_chars : List Char → Bool
  | d0 :: d1 :: d2 :: d3 :: u :: rest =>
      is_ascii_digit d0 && is_ascii_digit d1 && is_ascii_digit d2 && is_ascii_digit d3 &&
      (u == '_') && decide (3 ≤ rest.length) &&
      (rest.drop (rest.length - 3) == ['.', 'j', 's']) &&
      rest.all (fun c => !(c == '/'))
  | _ => false

/-- The glob pattern applied to a basename. -/
def matches_pattern (s : String) : Bool :=
  matches_pattern_chars s.data

/-- Equality of `Except` values is decidable (needed to evaluate the
embedded fallible functions on concrete inputs). -/
instance instDecEqExcept {ε α : Type} [DecidableEq ε] [DecidableEq α] :
    DecidableEq (Except ε α) := fun a b =>
  match a, b with
  | .ok x, .ok y =>
      if h : x = y then .isTrue (congrArg Except.ok h)
      else .isFalse (fun hc => h (Except.ok.inj hc))
  | .error x, .error y =>
      if h : x = y then .isTrue (congrArg Except.error h)
      else .isFalse (fun hc => h (Except.error.inj hc))
  | .ok _, .error _ => .isFalse (fun hc => Except.noConfusion hc)
  | .error _, .ok _ => .isFalse (fun hc => Except.noConfusion hc)

/-- Does `pat` occur as a prefix of `s` (on character lists)? -/
def listIsPrefixOf : List Char → List Char → Bool
  | [], _ => true
  | _ :: _, [] => false
  | p :: ps, c :: cs => p == c && listIsPrefixOf ps cs

/-- Helper for the greedy regex `command SON\(.*\) failed: `: the remainder
of the input after the LAST occurrence of `") failed: "` that starts before
any newline (`.` does not match a newline, so the greedy `.*` cannot cross
one).  `none` when no such occurrence exists. -/
def lastFailedTail : List Char → Option (List Char)
  | [] => none
  | c :: rest =>
      if c == '\n' then none
      else
        match lastFailedTail rest with
        | some r => some r
        | none =>
            if listIsPrefixOf (") failed: ".data) (c :: rest) then
              some ((c :: rest).drop (") failed: ".data.length))
            else none

/-- Left-to-right scan of `re.sub(r'command SON\(.*\) failed: ', '', s)`:
at each position, if the greedy pattern matches, drop the match and resume
after it, else keep the character.  Fuel-recursive (fuel = input length
suffices, since every step strictly shortens the remaining input). -/
def subCommandSonAux : Nat → List Char → List Char
  | 0, cs => cs
  | _ + 1, [] => []
  | fuel + 1, c :: rest =>
      if listIsPrefixOf ("command SON(".data) (c :: rest) then
        match lastFailedTail ((c :: rest).drop ("command SON(".data.length)) with
        | some r => subCommandSonAux fuel r
        | none => c :: subCommandSonAux fuel rest
      else c :: subCommandSonAux fuel rest

/-- Source `Migration.remove_script_from_exception_message`
(migrate_database.py:126-128):
`re.sub(r'command SON\(.*\) failed: ', '', message)`. -/
def Migration.remove_script_from_exception_message (message : String) : String :=
  String.mk (subCommandSonAux message.data.length message.data)

/-- Source `Migration.apply_to_mongo` (migrate_database.py:96-102) against an
abstracted `db.eval`.  Success is `.ok ()`; the `.error` payload is the
message of the raised `RuntimeError`: the truthy return value of `eval`,
or the cleaned text of a caught `OperationFailure`. -/
def Migration.apply_to_mongo (m : Migration) (evalFn : String → EvalResult) :
    Except String Unit :=
  match evalFn m.script_content with
  | .ok => .ok ()
  | .errorMessage msg => .error msg
  | .operationFailure msg =>
      .error (Migration.remove_script_from_exception_message msg)

/-- Source `Migration.was_already_applied` (migrate_database.py:104-108):
`'status' in self.document and self.document['status'] == OK` when a
document is bound, else `False`.  (The source's truthiness test
`if self.document:` is existence: a mongo document always carries `_id`
and is never the empty dict.) -/
def Migration.was_already_applied (m : Migration) : Bool :=
  match m.document with
  | some doc => doc.status == some MIGRATION_STATUS_OK
  | none => false

/-- Source `Migration.inconsistent_hashcode` (migrate_database.py:110-114).  The
lookup `self.document['sha_hash']` is unguarded: a bound document without
that field raises a Python `KeyError`, embedded as `Err.keyError`. -/
def Migration.inconsistent_hashcode (m : Migration) : Except Err Bool :=
  match m.document with
  | some doc =>
      match doc.sha_hash with
      | some h => .ok (sha1_hexdigest m.script_content != h)
      | none => .error (.keyError "sha_hash")
  | none => .ok false

/-- The document `Migration.save_migration_state`
(migrate_database.py:116-121) inserts (its `script_execution_date` elided). -/
def Migration.migration_state_doc (m : Migration) (status error_message : String) :
    Doc :=
  { filename := some m.filename
    error_message := some error_message
    status := some status
    sha_hash := some (sha1_hexdigest m.script_content)
    migration_lock := none }

/-- Source `Migration.save_migration_state`: `mongo_db().migrations.insert(...)`
appends the new record to the collection. -/
def Migration.save_migration_state (m : Migration) (status error_message : String)
    (db : List Doc) : List Doc :=
  db ++ [m.migration_state_doc status error_message]

/-- Source `already_locked` (migrate_database.py:52-53):
`find_one({'migration_lock': {'$exists': True}})` is truthy, i.e. some
document with a `migration_lock` field exists. -/
def already_locked (db : List Doc) : Bool :=
  (db.find? (fun d => d.migration_lock.isSome)).isSome

/-- The lock marker `{'migration_lock': datetime.utcnow()}`
(migrate_database.py:59), timestamp elided. -/
def lock_doc : Doc := { migration_lock := some () }

/-- The `migration_lock` context manager (migrate_database.py:56-65)
wrapping an arbitrary body.  The body receives the collection after the
lock insert and returns its final collection plus its outcome (`.error`
models an exception escaping the body); the `finally` clause
`remove({'migration_lock': {'$exists': True}})` deletes every lock
document before the outcome propagates. -/
def migration_lock (body : List Doc → List Doc × Except Err Unit) (db : List Doc) :
    List Doc × Except Err Unit :=
  if !(already_locked db) then
    let res := body (db ++ [lock_doc])
    (res.1.filter (fun d => !(d.migration_lock.isSome)), res.2)
  else
    (db, .error .alreadyLocked)

/-- Source `check_for_failed_scripts` (migrate_database.py:159-166):
`find_one({'status': FAILED})`; when a document is found, raise with its
`error_message` and `filename` (each defaulted via `.get`; the ObjectId
rendered into the source's filename default is elided). -/
def check_for_failed_scripts (db : List Doc) : Option Err :=
  match db.find? (fun d => d.status == some MIGRATION_STATUS_FAILED) with
  | some d =>
      some (.priorFailure (d.error_message.getD "unknown error")
        (d.filename.getD "unknown script name"))
  | none => none

/-- Reading `open(filename).read()` against the directory listing
`files : List (String × String)` of (basename, content) pairs. -/
def read_file (files : List (String × String)) (filename : String) : String :=
  (((files.find? (fun p => p.1 == filename))).map (fun p => p.2)).getD ""

/-- Source `Migration.load_migration` (migrate_database.py:85-94): read the
script content from disk and bind
`find_one({'filename': filename})` — the FIRST matching document in the
collection's natural (insertion) order. -/
def Migration.load_migration (files : List (String × String)) (db : List Doc)
    (filename : String) : Migration :=
  { filename := filename
    script_content := read_file files filename
    document := db.find? (fun d => d.filename == some filename) }

/-- The per-filename loop body of `get_migrations_to_execute`
(migrate_database.py:186-197), over the already-sorted filename list:
load each migration; abort on an inconsistent hash (or on the `KeyError`
that `inconsistent_hashcode` may raise); skip already-applied ones; keep
the rest in order. -/
def build_migrations (files : List (String × String)) (db : List Doc) :
    List String → Except Err (List Migration)
  | [] => .ok []
  | f :: rest =>
      let migration := Migration.load_migration files db f
      match migration.inconsistent_hashcode with
      | .error e => .error e
      | .ok true => .error (.hashMismatch migration.filename)
      | .ok false =>
          if migration.was_already_applied then build_migrations files db rest
          else
            match build_migrations files db rest with
            | .error e => .error e
            | .ok ms => .ok (migration :: ms)

/-- Source `get_migrations_to_execute` (migrate_database.py:177-202): glob the
directory listing, fail on an empty candidate set, fail on a
non-consecutive numbering, then build the pending list over the sorted
filenames.  (An empty pending list only logs and is returned as success.) -/
def get_migrations_to_execute (files : List (String × String)) (db : List Doc) :
    Except Err (List Migration) :=
  let filenames := (files.map (fun p => p.1)).filter matches_pattern
  if filenames = [] then .error .noScripts
  else if !(check_consecutive filenames) then
    .error (.nonConsecutive (pySorted filenames))
  else build_migrations files db (pySorted filenames)

/-- Source `process_migrations` (migrate_database.py:205-215), threading the
record collection and the trace of `db.eval` invocations (one entry per
`apply_to_mongo` call, carrying the exact script content passed).  On
success append an OK record and continue; on a `RuntimeError` append a
FAILED record carrying the exception message and raise
`Err.migrationFailed` at once. -/
def process_migrations (evalFn : String → EvalResult) :
    List Migration → List Doc → List String → List Doc × List String × Option Err
  | [], db, calls => (db, calls, none)
  | m :: rest, db, calls =>
      match m.apply_to_mongo evalFn with
      | .ok _ =>
          process_migrations evalFn rest
            (m.save_migration_state MIGRATION_STATUS_OK "" db)
            (calls ++ [m.script_content])
      | .error msg =>
          (m.save_migration_state MIGRATION_STATUS_FAILED msg db,
           calls ++ [m.script_content],
           some (.migrationFailed m.filename msg))

/-- The body of `process` inside the lock (migrate_database.py:235-241):
gate on prior failures, then discover, then execute.  Result: final
record collection, `db.eval` call trace, and the raised error if any. -/
def process_in_lock (evalFn : String → EvalResult)
    (files : List (String × String)) (db : List Doc) :
    List Doc × List String × Option Err :=
  match check_for_failed_scripts db with
  | some e => (db, [], some e)
  | none =>
      match get_migrations_to_execute files db with
      | .error e => (db, [], some e)
      | .ok migs => process_migrations evalFn migs db []

/-- Modelled from the spec (refinement comparison for the record-binding
claim): `findLatestRecord(filename)` — "the most recent is authoritative".
Under the append-only `appendRecord`, the most recent record for a
filename is the LAST matching document of the collection. -/
def find_latest_record (db : List Doc) (filename : String) : Option Doc :=
  (db.filter (fun d => d.filename == some filename)).getLast?

/-- Did an `Except`-embedded computation finish without raising? -/
def exceptOk (e : Except Err Bool) : Bool :=
  match e with
  | .ok _ => true
  | .error _ => false

/-- Does a character list start with four ASCII digits? -/
def digit_prefix4_chars : List Char → Bool
  | d0 :: d1 :: d2 :: d3 :: _ =>
      is_ascii_digit d0 && is_ascii_digit d1 && is_ascii_digit d2 && is_ascii_digit d3
  | _ => false

/-- Does the filename have a four-ASCII-digit prefix (the shape every
glob-matched basename has)? -/
def digit_prefix4 (s : String) : Bool :=
  digit_prefix4_chars s.data

/-- Is this error the `PriorFailureError` raise site of
`check_for_failed_scripts`? -/
def Err.isPriorFailure : Err → Bool
  | .priorFailure _ _ => true
  | _ => false

/-! ### Concrete fixtures used by the witness theorems -/

/-- A database stub whose every script execution succeeds. -/
def evalFnOk : String → EvalResult := fun _ => EvalResult.ok

/-- A database stub that fails exactly on the script text `"content2"`. -/
def evalFnBad : String → EvalResult :=
  fun s => if s == "content2" then EvalResult.errorMessage "boom" else EvalResult.ok

def mig0 : Migration := { filename := "0000_a.js", script_content := "content1" }

def mig1 : Migration := { filename := "0001_b.js", script_content := "content2" }

def mig2 : Migration := { filename := "0002_c.js", script_content := "content3" }

/-- A two-script migration directory. -/
def filesW : List (String × String) :=
  [("0000_a.js", "content1"), ("0001_b.js", "content2")]

/-- Fixture `mig0` as `load_migration` builds it from `filesW` over an empty
collection. -/
def mig0W : Migration :=
  { filename := "0000_a.js", document := none, script_content := "content1" }

/-- Fixture `mig1` as `load_migration` builds it from `filesW` over an empty
collection. -/
def mig1W : Migration :=
  { filename := "0001_b.js", document := none, script_content := "content2" }

/-- A FAILED record for `0000_a.js`. -/
def docFailedW : Doc :=
  { filename := some "0000_a.js", error_message := some "boom",
    status := some "FAILED", sha_hash := some (sha1_hexdigest "content1") }

/-- An OK record for `0000_a.js`, inserted after `docFailedW`. -/
def docOkW : Doc :=
  { filename := some "0000_a.js", error_message := some "",
    status := some "OK", sha_hash := some (sha1_hexdigest "content1") }

/-- A lock-region body that inserts nothing and succeeds. -/
def bodyW : List Doc → List Doc × Except Err Unit := fun s => (s, Except.ok ())

/-- OK records for both scripts of `filesW`, hashes matching the current
content. -/
def dbAppliedW : List Doc :=
  [{ filename := some "0000_a.js", error_message := some "", status := some "OK",
     sha_hash := some (sha1_hexdigest "content1") },
   { filename := some "0001_b.js", error_message := some "", status := some "OK",
     sha_hash := some (sha1_hexdigest "content2") }]

/-- Two records for the same filename: the FAILED one inserted first, the
OK one inserted later (hence the more recent one). -/
def dbTwoRecordsW : List Doc := [docFailedW, docOkW]

/-- A migration whose current content no longer matches its stored hash. -/
def mInconsW : Migration :=
  { filename := "0000_a.js", document := some docOkW, script_content := "changed" }

/-- A migration bound to an OK record. -/
def mAppliedW : Migration :=
  { filename := "0000_a.js", document := some docOkW, script_content := "content1" }

/-- A record lacking the `sha_hash` field. -/
def docNoHashW : Doc := { status := some "OK" }

/-- A migration bound to a record without `sha_hash`: its
`inconsistent_hashcode` raises `KeyError`. -/
def mNoHashW : Migration :=
  { filename := "0000_a.js", document := some docNoHashW, script_content := "content1" }

/-! ### Order lemmas for Python string sorting -/

theorem lexLe_total (la lb : List Char) : lexLe la lb = true ∨ lexLe lb la = true := by
  induction la generalizing lb with
  | nil => exact Or.inl rfl
  | cons a as ih =>
    cases lb with
    | nil => exact Or.inr rfl
    | cons b bs =>
      simp only [lexLe]
      by_cases h1 : a.toNat < b.toNat
      · left; simp [h1]
      · by_cases h2 : b.toNat < a.toNat
        · right; simp [h2]
        · simp only [h1, h2, if_false]
          exact ih bs

theorem lexLe_trans (la lb lc : List Char) (h1 : lexLe la lb = true)
    (h2 : lexLe lb lc = true) : lexLe la lc = true := by
  induction la generalizing lb lc with
  | nil => rfl
  | cons a as ih =>
    cases lb with
    | nil => simp [lexLe] at h1
    | cons b bs =>
      cases lc with
      | nil => simp [lexLe] at h2
      | cons c cs =>
        simp only [lexLe] at h1 h2 ⊢
        by_cases hab : a.toNat < b.toNat
        · by_cases hbc : b.toNat < c.toNat
          · have hac : a.toNat < c.toNat := Nat.lt_trans hab hbc
            simp [hac]
          · by_cases hcb : c.toNat < b.toNat
            · rw [if_neg hbc, if_pos hcb] at h2
              exact absurd h2 Bool.false_ne_true
            · have hac : a.toNat < c.toNat := by omega
              simp [hac]
        · by_cases hba : b.toNat < a.toNat
          · rw [if_neg hab, if_pos hba] at h1
            exact absurd h1 Bool.false_ne_true
          · rw [if_neg hab, if_neg hba] at h1
            by_cases hbc : b.toNat < c.toNat
            · have hac : a.toNat < c.toNat := by omega
              simp [hac]
            · by_cases hcb : c.toNat < b.toNat
              · rw [if_neg hbc, if_pos hcb] at h2
                exact absurd h2 Bool.false_ne_true
              · rw [if_neg hbc, if_neg hcb] at h2
                have h3 : ¬ a.toNat < c.toNat := by omega
                have h4 : ¬ c.toNat < a.toNat := by omega
                rw [if_neg h3, if_neg h4]
                exact ih bs cs h1 h2

/-- On names with four-digit prefixes, the lexicographic order refines the
numeric order of the prefixes. -/
theorem lexLe_filenumber_mono (la lb : List Char)
    (ha : digit_prefix4_chars la = true) (hb : digit_prefix4_chars lb = true)
    (hle : lexLe la lb = true) :
    filenumber_of_chars la ≤ filenumber_of_chars lb := by
  rcases la with _ | ⟨a0, _ | ⟨a1, _ | ⟨a2, _ | ⟨a3, ra⟩⟩⟩⟩ <;>
    try simp [digit_prefix4_chars] at ha
  rcases lb with _ | ⟨b0, _ | ⟨b1, _ | ⟨b2, _ | ⟨b3, rb⟩⟩⟩⟩ <;>
    try simp [digit_prefix4_chars] at hb
  simp only [digit_prefix4_chars, is_ascii_digit, Bool.and_eq_true,
    decide_eq_true_eq] at ha hb
  simp only [lexLe] at hle
  simp only [filenumber_of_chars, char_digit]
  split_ifs at hle <;>
    first
      | exact absurd hle Bool.false_ne_true
      | omega

theorem insertSorted_perm (x : String) (l : List String) :
    (insertSorted x l).Perm (x :: l) := by
  induction l with
  | nil => exact List.Perm.refl _
  | cons y ys ih =>
    simp only [insertSorted]
    by_cases h : pyStrLe x y = true
    · simp [h]
    · simp only [h, if_false]
      exact (List.Perm.cons y ih).trans (List.Perm.swap x y ys)

theorem mem_insertSorted {z x : String} {l : List String} :
    z ∈ insertSorted x l ↔ z = x ∨ z ∈ l := by
  rw [(insertSorted_perm x l).mem_iff]
  simp

theorem pySorted_perm (l : List String) : (pySorted l).Perm l := by
  induction l with
  | nil => exact List.Perm.refl _
  | cons x xs ih => exact (insertSorted_perm x _).trans (List.Perm.cons x ih)

theorem insertSorted_sorted (x : String) (l : List String)
    (h : l.Pairwise (fun a b => pyStrLe a b = true)) :
    (insertSorted x l).Pairwise (fun a b => pyStrLe a b = true) := by
  induction l with
  | nil => simp [insertSorted]
  | cons y ys ih =>
    obtain ⟨hy, hys⟩ := List.pairwise_cons.mp h
    simp only [insertSorted]
    by_cases hxy : pyStrLe x y = true
    · simp only [hxy, if_true]
      refine List.pairwise_cons.mpr ⟨?_, h⟩
      intro z hz
      rcases List.mem_cons.mp hz with rfl | hz'
      · exact hxy
      · exact lexLe_trans _ _ _ hxy (hy z hz')
    · simp only [hxy, if_false]
      refine List.pairwise_cons.mpr ⟨?_, ih hys⟩
      intro z hz
      rcases mem_insertSorted.mp hz with rfl | hz'
      · rcases lexLe_total z.data y.data with h' | h'
        · exact absurd h' hxy
        · exact h'
      · exact hy z hz'

theorem pySorted_sorted (l : List String) :
    (pySorted l).Pairwise (fun a b => pyStrLe a b = true) := by
  induction l with
  | nil => simp [pySorted]
  | cons x xs ih => exact insertSorted_sorted x _ ih

/-! ### Claim C3 -/

/-- Claim C3: for every list of filenames beginning with a four-digit
decimal prefix, `check_consecutive` returns true iff the multiset of
prefixes is exactly the integer sequence `0, 1, ..., N-1` (stated as a
permutation of `List.range N`); any gap or duplicate makes the
permutation — and hence the result — fail, and the input order is
irrelevant because only the multiset of prefixes enters the statement. -/
theorem claim_C3_check_consecutive (filenames : List String)
    (h : ∀ f ∈ filenames, digit_prefix4 f = true) :
    check_consecutive filenames = true ↔
      (filenames.map extract_filenumber).Perm (List.range filenames.length) := by
  have hperm : (pySorted filenames).Perm filenames := pySorted_perm filenames
  have hmap : ((pySorted filenames).map extract_filenumber).Perm
      (filenames.map extract_filenumber) := hperm.map _
  rw [check_consecutive, decide_eq_true_iff]
  constructor
  · intro hc
    rw [← hc]
    exact hmap.symm
  · intro hp
    have hsorted2 : ((pySorted filenames).map extract_filenumber).Pairwise (· ≤ ·) := by
      rw [List.pairwise_map]
      refine (pySorted_sorted filenames).imp_of_mem ?_
      intro a b hma hmb hab
      exact lexLe_filenumber_mono a.data b.data
        (h a (hperm.mem_iff.mp hma)) (h b (hperm.mem_iff.mp hmb)) hab
    have hsortedr : (List.range filenames.length).Pairwise (· ≤ ·) :=
      (List.pairwise_lt_range _).imp (fun hab => Nat.le_of_lt hab)
    exact List.eq_of_perm_of_sorted (hmap.trans hp) hsorted2 hsortedr

/-- Witness for C3: both directions evaluated on a concrete out-of-order
two-element list. -/
theorem claim_C3_witness :
    check_consecutive ["0001_b.js", "0000_a.js"] = true ∧
      ((["0001_b.js", "0000_a.js"].map extract_filenumber).Perm (List.range 2)) :=
  ⟨(claim_C3_check_consecutive ["0001_b.js", "0000_a.js"] (by decide)).mpr (by decide),
   (claim_C3_check_consecutive ["0001_b.js", "0000_a.js"] (by decide)).mp (by decide)⟩

/-! ### Execution lemmas -/

/-- Running `process_migrations` over a prefix of migrations that all
apply cleanly appends one OK record and one eval call per migration and
continues with the remainder. -/
theorem process_migrations_append_ok (evalFn : String → EvalResult)
    (pre rest : List Migration) :
    ∀ (db : List Doc) (calls : List String),
      (∀ m ∈ pre, m.apply_to_mongo evalFn = .ok ()) →
      process_migrations evalFn (pre ++ rest) db calls =
        process_migrations evalFn rest
          (db ++ pre.map (fun m => m.migration_state_doc MIGRATION_STATUS_OK ""))
          (calls ++ pre.map (fun m => m.script_content)) := by
  induction pre with
  | nil => intro db calls _; simp
  | cons m pre ih =>
    intro db calls hpre
    have hm : m.apply_to_mongo evalFn = .ok () := hpre m (List.mem_cons_self m pre)
    have hpre' : ∀ x ∈ pre, x.apply_to_mongo evalFn = .ok () :=
      fun x hx => hpre x (List.mem_cons_of_mem m hx)
    simp only [List.cons_append, process_migrations, hm, List.append_eq]
    rw [ih (m.save_migration_state MIGRATION_STATUS_OK "" db)
      (calls ++ [m.script_content]) hpre']
    simp [Migration.save_migration_state, List.append_assoc]

/-- Lemma: `build_migrations` keeps the traversal order: the filenames of the
pending migrations it returns form a sublist of the filename list it
walked. -/
theorem build_migrations_filenames_sublist (files : List (String × String))
    (db : List Doc) :
    ∀ (fs : List String) (ms : List Migration),
      build_migrations files db fs = .ok ms →
      (ms.map (fun m => m.filename)).Sublist fs := by
  intro fs
  induction fs with
  | nil =>
    intro ms h
    simp only [build_migrations] at h
    cases h
    simp
  | cons f rest ih =>
    intro ms h
    simp only [build_migrations] at h
    cases hic : (Migration.load_migration files db f).inconsistent_hashcode with
    | error e => rw [hic] at h; cases h
    | ok b =>
      rw [hic] at h
      cases b with
      | true => cases h
      | false =>
        simp only at h
        by_cases ha : (Migration.load_migration files db f).was_already_applied = true
        · rw [if_pos ha] at h
          exact (ih ms h).cons f
        · rw [if_neg ha] at h
          cases hb : build_migrations files db rest with
          | error e => rw [hb] at h; cases h
          | ok ms' =>
            rw [hb] at h
            cases h
            simp only [List.map_cons]
            exact (ih ms' hb).cons₂ f

/-- Every glob-matched basename has a four-digit prefix. -/
theorem digit_prefix4_chars_of_matches (l : List Char)
    (h : matches_pattern_chars l = true) : digit_prefix4_chars l = true := by
  rcases l with _ | ⟨d0, _ | ⟨d1, _ | ⟨d2, _ | ⟨d3, _ | ⟨u, rest⟩⟩⟩⟩⟩ <;>
    simp only [matches_pattern_chars, Bool.and_eq_true] at h
  · exact absurd h Bool.false_ne_true
  · exact absurd h Bool.false_ne_true
  · exact absurd h Bool.false_ne_true
  · exact absurd h Bool.false_ne_true
  · exact absurd h Bool.false_ne_true
  · simp only [digit_prefix4_chars, Bool.and_eq_true]
    tauto

/-! ### Claim C1 -/

/-- Claim C1: if every migration before `mf` applies cleanly and applying
`mf` fails with message `msg`, `process_migrations` appends one OK record
per preceding migration, then the FAILED record for `mf` (carrying
`msg`), and raises the fatal `migrationFailed` error; the migrations
after `mf` are neither applied (no further eval calls) nor recorded. -/
theorem claim_C1_failure_short_circuit (evalFn : String → EvalResult)
    (pre post : List Migration) (mf : Migration) (msg : String)
    (db : List Doc) (calls : List String)
    (hpre : ∀ m ∈ pre, m.apply_to_mongo evalFn = .ok ())
    (hf : mf.apply_to_mongo evalFn = .error msg) :
    process_migrations evalFn (pre ++ mf :: post) db calls =
      (db ++ pre.map (fun m => m.migration_state_doc MIGRATION_STATUS_OK "")
          ++ [mf.migration_state_doc MIGRATION_STATUS_FAILED msg],
       calls ++ pre.map (fun m => m.script_content) ++ [mf.script_content],
       some (.migrationFailed mf.filename msg)) := by
  rw [process_migrations_append_ok evalFn pre (mf :: post) db calls hpre]
  simp [process_migrations, hf, Migration.save_migration_state, List.append_assoc]

/-- Witness for C1: a three-migration run whose second script fails. -/
theorem claim_C1_witness :
    process_migrations evalFnBad [mig0, mig1, mig2] [] [] =
      ([mig0.migration_state_doc MIGRATION_STATUS_OK "",
        mig1.migration_state_doc MIGRATION_STATUS_FAILED "boom"],
       ["content1", "content2"],
       some (.migrationFailed "0001_b.js" "boom")) := by
  have h := claim_C1_failure_short_circuit evalFnBad [mig0] [mig2] mig1 "boom" [] []
    (by decide) (by decide)
  simpa using h

/-! ### Claim C2 -/

/-- Claim C2: (1) when every migration of the pending list applies
cleanly, `process_migrations` walks the list in order, invokes the
database execution call exactly once per migration with exactly its
script content, and appends exactly one OK record with empty error
message per migration; (2) every pending list the engine builds is in
strictly ascending numeric-prefix order. -/
theorem claim_C2_success_path :
    (∀ (evalFn : String → EvalResult) (migs : List Migration) (db : List Doc)
        (calls : List String),
        (∀ m ∈ migs, m.apply_to_mongo evalFn = .ok ()) →
        process_migrations evalFn migs db calls =
          (db ++ migs.map (fun m => m.migration_state_doc MIGRATION_STATUS_OK ""),
           calls ++ migs.map (fun m => m.script_content), none)) ∧
    (∀ (files : List (String × String)) (db : List Doc) (migs : List Migration),
        get_migrations_to_execute files db = .ok migs →
        migs.Pairwise (fun a b =>
          extract_filenumber a.filename < extract_filenumber b.filename)) := by
  constructor
  · intro evalFn migs db calls hok
    rw [show migs = migs ++ [] by simp,
      process_migrations_append_ok evalFn migs [] db calls hok]
    simp [process_migrations]
  · intro files db migs hok
    simp only [get_migrations_to_execute] at hok
    by_cases h0 : ((files.map (fun p => p.1)).filter matches_pattern) = []
    · rw [if_pos h0] at hok; cases hok
    · rw [if_neg h0] at hok
      by_cases hc :
          check_consecutive ((files.map (fun p => p.1)).filter matches_pattern) = true
      · rw [hc] at hok
        simp only [Bool.not_true, Bool.false_eq_true, if_false] at hok
        have hrange : ((pySorted ((files.map (fun p => p.1)).filter matches_pattern)).map
            extract_filenumber) =
            List.range ((files.map (fun p => p.1)).filter matches_pattern).length := by
          rw [check_consecutive, decide_eq_true_iff] at hc
          exact hc
        have hsub := build_migrations_filenames_sublist files db _ _ hok
        have hsub2 := hsub.map extract_filenumber
        rw [hrange] at hsub2
        have hpair := (List.pairwise_lt_range _).sublist hsub2
        rw [List.map_map] at hpair
        exact List.pairwise_map.mp hpair
      · have hc' : check_consecutive ((files.map (fun p => p.1)).filter matches_pattern)
            = false := by
          cases hcc : check_consecutive ((files.map (fun p => p.1)).filter matches_pattern)
          · rfl
          · exact absurd hcc hc
        rw [hc'] at hok
        simp only [Bool.not_false, if_true] at hok
        cases hok

/-- Witness for C2: both conjuncts instantiated — a clean two-migration
run, and the pending list built from a concrete two-script directory. -/
theorem claim_C2_witness :
    process_migrations evalFnOk [mig0, mig1] [] [] =
      ([mig0.migration_state_doc MIGRATION_STATUS_OK "",
        mig1.migration_state_doc MIGRATION_STATUS_OK ""],
       ["content1", "content2"], none) ∧
    List.Pairwise (fun a b => extract_filenumber a.filename < extract_filenumber b.filename)
      [mig0W, mig1W] := by
  constructor
  · have h := claim_C2_success_path.1 evalFnOk [mig0, mig1] [] [] (by decide)
    simpa using h
  · exact claim_C2_success_path.2 filesW [] [mig0W, mig1W] (by decide)

/-! ### Claim C4 -/

/-- Claim C4: when a lock record already exists, acquisition fails at once
with `AlreadyLockedError` and the collection is untouched; otherwise
exactly one lock record is inserted before the body runs, the body's
outcome (success or exception) propagates, only lock records are removed
on exit, and no lock record remains after any run that reached the locked
state. -/
theorem claim_C4_lock (body : List Doc → List Doc × Except Err Unit) (db : List Doc) :
    (already_locked db = true → migration_lock body db = (db, .error .alreadyLocked)) ∧
    (already_locked db = false →
      ((db ++ [lock_doc]).countP (fun d => d.migration_lock.isSome)) = 1 ∧
      (migration_lock body db).2 = (body (db ++ [lock_doc])).2 ∧
      (migration_lock body db).1 =
        (body (db ++ [lock_doc])).1.filter (fun d => !(d.migration_lock.isSome)) ∧
      (migration_lock body db).1.countP (fun d => d.migration_lock.isSome) = 0) := by
  constructor
  · intro h
    simp [migration_lock, h]
  · intro h
    have hnone : ∀ d ∈ db, ¬((fun d => d.migration_lock.isSome) d = true) := by
      intro d hd hcontra
      have hs : (db.find? (fun d => d.migration_lock.isSome)).isSome = true :=
        List.find?_isSome.mpr ⟨d, hd, hcontra⟩
      simp only [already_locked] at h
      rw [h] at hs
      exact absurd hs Bool.false_ne_true
    refine ⟨?_, ?_, ?_, ?_⟩
    · rw [List.countP_append, List.countP_eq_zero.mpr hnone]
      simp [lock_doc]
    · simp [migration_lock, h]
    · simp [migration_lock, h]
    · simp only [migration_lock, h, Bool.not_false, if_true]
      rw [List.countP_eq_zero]
      intro a ha
      have hmem := (List.mem_filter.mp ha).2
      simp only [Bool.not_eq_true'] at hmem
      simp [hmem]

/-- Witness for C4: both branches — an empty (unlocked) collection with a
trivial body, and a collection already holding a lock record. -/
theorem claim_C4_witness :
    (((([] : List Doc) ++ [lock_doc]).countP (fun d => d.migration_lock.isSome)) = 1 ∧
      (migration_lock bodyW []).2 = (bodyW ([] ++ [lock_doc])).2 ∧
      (migration_lock bodyW []).1 =
        (bodyW ([] ++ [lock_doc])).1.filter (fun d => !(d.migration_lock.isSome)) ∧
      (migration_lock bodyW []).1.countP (fun d => d.migration_lock.isSome) = 0) ∧
    migration_lock bodyW [lock_doc] = ([lock_doc], .error .alreadyLocked) :=
  ⟨(claim_C4_lock bodyW []).2 rfl, (claim_C4_lock bodyW [lock_doc]).1 rfl⟩

/-! ### Claim C5 -/

/-- Claim C5: whenever some stored record has status FAILED, the locked
region aborts with `PriorFailureError` before discovery or execution: the
collection is unchanged, no execution call is made, and the outcome does
not even depend on the script directory contents. -/
theorem claim_C5_prior_failure_gate (evalFn : String → EvalResult)
    (files files' : List (String × String)) (db : List Doc)
    (hfail : ∃ d ∈ db, d.status = some MIGRATION_STATUS_FAILED) :
    (process_in_lock evalFn files db).1 = db ∧
    (process_in_lock evalFn files db).2.1 = [] ∧
    ((process_in_lock evalFn files db).2.2.map Err.isPriorFailure) = some true ∧
    process_in_lock evalFn files' db = process_in_lock evalFn files db := by
  have hsome : (db.find? (fun d => d.status == some MIGRATION_STATUS_FAILED)).isSome
      = true := by
    rcases hfail with ⟨d, hd, hs⟩
    exact List.find?_isSome.mpr ⟨d, hd, by simp [hs]⟩
  rcases hfind : db.find? (fun d => d.status == some MIGRATION_STATUS_FAILED)
    with _ | d
  · rw [hfind] at hsome
    exact absurd hsome Bool.false_ne_true
  · simp [process_in_lock, check_for_failed_scripts, hfind, Err.isPriorFailure]

/-- Witness for C5: a store holding one FAILED record, compared across two
different directory listings. -/
theorem claim_C5_witness :
    (process_in_lock evalFnOk [] [docFailedW]).1 = [docFailedW] ∧
    (process_in_lock evalFnOk [] [docFailedW]).2.1 = [] ∧
    ((process_in_lock evalFnOk [] [docFailedW]).2.2.map Err.isPriorFailure) = some true ∧
    process_in_lock evalFnOk filesW [docFailedW] = process_in_lock evalFnOk [] [docFailedW] :=
  claim_C5_prior_failure_gate evalFnOk [] filesW [docFailedW]
    ⟨docFailedW, List.mem_cons_self docFailedW [], rfl⟩

/-! ### Claim C6 -/

/-- The only error `inconsistent_hashcode` can raise is the `KeyError` on
the `sha_hash` lookup. -/
theorem inconsistent_hashcode_error (m : Migration) (e : Err)
    (h : m.inconsistent_hashcode = .error e) : e = .keyError "sha_hash" := by
  rcases m with ⟨f, d, c⟩
  rcases d with _ | d
  · simp [Migration.inconsistent_hashcode] at h
  · rcases hs : d.sha_hash with _ | hh
    · simp only [Migration.inconsistent_hashcode, hs] at h
      exact (Except.error.inj h).symm
    · simp only [Migration.inconsistent_hashcode, hs] at h
      cases h

/-- Lemma: `build_migrations` never raises the zero-candidates error. -/
theorem build_migrations_ne_noScripts (files : List (String × String)) (db : List Doc) :
    ∀ fs, build_migrations files db fs ≠ .error .noScripts := by
  intro fs
  induction fs with
  | nil => simp [build_migrations]
  | cons f rest ih =>
    intro h
    simp only [build_migrations] at h
    cases hic : (Migration.load_migration files db f).inconsistent_hashcode with
    | error e =>
      rw [hic] at h
      have he := inconsistent_hashcode_error _ _ hic
      cases h
      exact Err.noConfusion he
    | ok b =>
      rw [hic] at h
      cases b with
      | true => cases h
      | false =>
        simp only at h
        by_cases ha : (Migration.load_migration files db f).was_already_applied = true
        · rw [if_pos ha] at h
          exact ih h
        · rw [if_neg ha] at h
          cases hb : build_migrations files db rest with
          | error e =>
            rw [hb] at h
            cases h
            exact ih hb
          | ok ms' =>
            rw [hb] at h
            cases h

/-- Over a filename list whose every entry is consistent and already
applied, `build_migrations` skips everything and succeeds with the empty
pending list. -/
theorem build_migrations_all_applied (files : List (String × String)) (db : List Doc) :
    ∀ fs,
      (∀ f ∈ fs,
        (Migration.load_migration files db f).inconsistent_hashcode = .ok false ∧
        (Migration.load_migration files db f).was_already_applied = true) →
      build_migrations files db fs = .ok [] := by
  intro fs
  induction fs with
  | nil => intro _; rfl
  | cons f rest ih =>
    intro h
    obtain ⟨hic, ha⟩ := h f (List.mem_cons_self f rest)
    simp only [build_migrations, hic, ha, if_true]
    exact ih (fun x hx => h x (List.mem_cons_of_mem f hx))

/-- Claim C6: discovery raises `DiscoveryError` exactly when zero files
match the glob pattern; and when candidates exist, are consecutively
numbered, and every one is hash-consistent and already applied,
`get_migrations_to_execute` returns the empty pending list without any
error. -/
theorem claim_C6_discovery (files : List (String × String)) (db : List Doc) :
    (get_migrations_to_execute files db = .error .noScripts ↔
      ((files.map (fun p => p.1)).filter matches_pattern) = []) ∧
    (((files.map (fun p => p.1)).filter matches_pattern) ≠ [] →
      check_consecutive ((files.map (fun p => p.1)).filter matches_pattern) = true →
      (∀ f ∈ (files.map (fun p => p.1)).filter matches_pattern,
        (Migration.load_migration files db f).inconsistent_hashcode = .ok false ∧
        (Migration.load_migration files db f).was_already_applied = true) →
      get_migrations_to_execute files db = .ok []) := by
  constructor
  · constructor
    · intro h
      by_contra h0
      simp only [get_migrations_to_execute] at h
      rw [if_neg h0] at h
      by_cases hc :
          check_consecutive ((files.map (fun p => p.1)).filter matches_pattern) = true
      · rw [hc] at h
        simp only [Bool.not_true, Bool.false_eq_true, if_false] at h
        exact build_migrations_ne_noScripts files db _ h
      · have hc' : check_consecutive ((files.map (fun p => p.1)).filter matches_pattern)
            = false := by
          cases hcc :
            check_consecutive ((files.map (fun p => p.1)).filter matches_pattern)
          · rfl
          · exact absurd hcc hc
        rw [hc'] at h
        simp only [Bool.not_false, if_true] at h
        cases h
    · intro h0
      simp only [get_migrations_to_execute]
      rw [if_pos h0]
  · intro h0 hc hall
    simp only [get_migrations_to_execute]
    rw [if_neg h0, hc]
    simp only [Bool.not_true, Bool.false_eq_true, if_false]
    refine build_migrations_all_applied files db _ ?_
    intro f hf
    exact hall f ((pySorted_perm _).mem_iff.mp hf)

/-- Witness for C6: a fully-applied two-script directory succeeds with an
empty pending list; a directory with no matching file raises the
zero-candidates error. -/
theorem claim_C6_witness :
    get_migrations_to_execute filesW dbAppliedW = .ok [] ∧
    get_migrations_to_execute [("README.md", "x")] [] = .error .noScripts := by
  constructor
  · exact (claim_C6_discovery filesW dbAppliedW).2 (by decide) (by decide) (by decide)
  · exact (claim_C6_discovery [("README.md", "x")] []).1.mpr (by decide)

/-! ### Claim C7 -/

/-- Claim C7: `inconsistent_hashcode` of a migration with no bound record
is false; with a bound record carrying a stored hash it returns true iff
the fresh hash of the current content differs from the stored hash; and
the result never depends on the record's status. -/
theorem claim_C7_inconsistent_hash (m : Migration) :
    (m.document = none → m.inconsistent_hashcode = .ok false) ∧
    (∀ (d : Doc) (h : String), m.document = some d → d.sha_hash = some h →
      (m.inconsistent_hashcode = .ok true ↔ sha1_hexdigest m.script_content ≠ h)) ∧
    (∀ (d : Doc) (st : Option String), m.document = some d →
      Migration.inconsistent_hashcode { m with document := some { d with status := st } } =
        m.inconsistent_hashcode) := by
  refine ⟨?_, ?_, ?_⟩
  · intro h
    simp [Migration.inconsistent_hashcode, h]
  · intro d h hd hh
    simp only [Migration.inconsistent_hashcode, hd, hh]
    constructor
    · intro hc
      have := Except.ok.inj hc
      simpa [bne_iff_ne] using this
    · intro hne
      have : (sha1_hexdigest m.script_content != h) = true := by
        simpa [bne_iff_ne] using hne
      rw [this]
  · intro d st hd
    rcases hs : d.sha_hash with _ | hh <;>
      simp [Migration.inconsistent_hashcode, hd, hs]

/-- Witness for C7: a migration whose content was edited after its OK
record was written. -/
theorem claim_C7_witness :
    Migration.inconsistent_hashcode mInconsW = .ok true ↔
      sha1_hexdigest mInconsW.script_content ≠ sha1_hexdigest "content1" :=
  (claim_C7_inconsistent_hash mInconsW).2.1 docOkW (sha1_hexdigest "content1") rfl rfl

/-! ### Claim C8 -/

/-- Claim C8: `was_already_applied` is true iff a record is bound and its
status field is present and equal to OK; no record, a FAILED status, or a
missing status all report false. -/
theorem claim_C8_was_already_applied (m : Migration) :
    m.was_already_applied = true ↔
      ∃ d, m.document = some d ∧ d.status = some MIGRATION_STATUS_OK := by
  rcases m with ⟨f, d, c⟩
  rcases d with _ | d
  · simp [Migration.was_already_applied]
  · simp [Migration.was_already_applied, beq_iff_eq]

/-- Witness for C8: a migration bound to an OK record. -/
theorem claim_C8_witness : Migration.was_already_applied mAppliedW = true :=
  (claim_C8_was_already_applied mAppliedW).mpr ⟨docOkW, rfl, rfl⟩

/-! ### Claim C9 -/

/-- Counterexample to C9 as stated: with two records for the same filename
(the FAILED one inserted first, the OK one later), `load_migration` binds
the FIRST record in insertion order, while the most recent record is the
second — so the bound record is NOT the most recent one. -/
theorem claim_C9_counterexample :
    (Migration.load_migration filesW dbTwoRecordsW "0000_a.js").document =
      some docFailedW ∧
    find_latest_record dbTwoRecordsW "0000_a.js" = some docOkW ∧
    docFailedW ≠ docOkW := by
  refine ⟨rfl, rfl, by decide⟩

/-- Amended C9: the record `load_migration` binds (the one consulted by
`was_already_applied` and `inconsistent_hashcode`) is the FIRST stored
record for the filename in the collection's natural (insertion) order —
the oldest when several records exist — because `find_one` is issued
without any sort. -/
theorem claim_C9_amended_first_record (files : List (String × String))
    (pre post : List Doc) (d : Doc) (f : String)
    (hd : d.filename = some f)
    (hpre : ∀ d' ∈ pre, d'.filename ≠ some f) :
    (Migration.load_migration files (pre ++ d :: post) f).document = some d := by
  simp only [Migration.load_migration]
  rw [List.find?_append]
  have h1 : pre.find? (fun x => x.filename == some f) = none := by
    rw [List.find?_eq_none]
    intro x hx
    simp only [beq_iff_eq]
    exact hpre x hx
  rw [h1]
  simp only [Option.none_or]
  rw [List.find?_cons_of_pos]
  simp [hd]

/-- Witness for the amended C9 at a concrete two-record store. -/
theorem claim_C9_witness :
    (Migration.load_migration filesW ([] ++ docFailedW :: [docOkW]) "0000_a.js").document =
      some docFailedW :=
  claim_C9_amended_first_record filesW [] [docOkW] docFailedW "0000_a.js" rfl
    (fun d' h => absurd h (List.not_mem_nil d'))

/-! ### Claim C10 -/

/-- Claim C10: `save_migration_state` always writes a `sha_hash` field, so
`inconsistent_hashcode` evaluated against any record it produced cannot
fail; and in general the unguarded `sha_hash` lookup succeeds exactly when
the bound record carries that field (a record without it makes the lookup
raise `KeyError`). -/
theorem claim_C10_sha_hash_safety :
    (∀ (m : Migration) (st em : String),
      (m.migration_state_doc st em).sha_hash = some (sha1_hexdigest m.script_content)) ∧
    (∀ (m m' : Migration) (st em : String),
      m.document = some (m'.migration_state_doc st em) →
      m.inconsistent_hashcode =
        .ok (sha1_hexdigest m.script_content != sha1_hexdigest m'.script_content)) ∧
    (∀ (m : Migration) (d : Doc), m.document = some d →
      exceptOk m.inconsistent_hashcode = d.sha_hash.isSome) := by
  refine ⟨fun m st em => rfl, ?_, ?_⟩
  · intro m m' st em hd
    simp [Migration.inconsistent_hashcode, hd, Migration.migration_state_doc]
  · intro m d hd
    rcases hs : d.sha_hash with _ | hh <;>
      simp [Migration.inconsistent_hashcode, exceptOk, hd, hs]

/-- Witness for C10: a record written by `save_migration_state` is safely
re-checked, while a hand-made record without `sha_hash` makes the lookup
fail. -/
theorem claim_C10_witness :
    Migration.inconsistent_hashcode
        { filename := "0000_a.js",
          document := some (Migration.migration_state_doc mig0 MIGRATION_STATUS_OK ""),
          script_content := "content1" } =
      .ok (sha1_hexdigest "content1" != sha1_hexdigest mig0.script_content) ∧
    exceptOk (Migration.inconsistent_hashcode mNoHashW) = false := by
  constructor
  · exact claim_C10_sha_hash_safety.2.1
      { filename := "0000_a.js",
        document := some (Migration.migration_state_doc mig0 MIGRATION_STATUS_OK ""),
        script_content := "content1" } mig0 MIGRATION_STATUS_OK "" rfl
  · have h := claim_C10_sha_hash_safety.2.2 mNoHashW docNoHashW rfl
    simpa using h

end MigrateDatabase
